import Mathlib

/-!
Shallow embedding of `src/python/seven_gates.py` (the Seven Gates cellular
automaton) and proofs of the specification's claims about it.

Modelling conventions:
* Python integers are `Int`; Python's `%` on a positive modulus is `Int.emod`
  (both always return a non-negative result for a positive modulus).
* `cells[r][c]` is embedded as `cellAt`, a total read with default `0`; the
  default is never exercised on well-formed grids (proved as the safety claim
  about index bounds).
* The per-cell branch of `step` is factored into `nextState`, and the
  `active_neighbors` count into `activeCount`, mirroring the inline code.
-/

namespace SevenGates

def STATE_RANGE : Int := 7

def ACTIVE_THRESHOLD : Int := 4

def PALETTE : String := " .:=*#@"

/-- `_wrap(value, max_value) = value % max_value` from the source. -/
def _wrap (value : Int) (max_value : Int) : Int := value % max_value

/-- The `AutomatonState` dataclass: `width`, `height`, row-major `cells`. -/
structure AutomatonState where
  width : Int
  height : Int
  cells : List (List Int)
  deriving DecidableEq, Repr

/-- Embedding of the Python read `self.cells[row][col]` (total, default 0;
the default is outside the verified in-bounds domain). -/
def cellAt (s : AutomatonState) (row col : Int) : Int :=
  (s.cells.getD row.toNat []).getD col.toNat 0

/-- `neighbor_coords`: the four orthogonal neighbors, each coordinate wrapped. -/
def AutomatonState.neighbor_coords (s : AutomatonState) (row col : Int) :
    List (Int × Int) :=
  [(-1, 0), (1, 0), (0, -1), (0, 1)].map
    (fun d => (_wrap (row + d.1) s.height, _wrap (col + d.2) s.width))

/-- The inline per-cell transition of `step`:
`if active_neighbors >= 2: (current+1) % 7 elif active_neighbors == 0:
(current-1) % 7 else: current`. -/
def nextState (current : Int) (active_neighbors : Nat) : Int :=
  if active_neighbors ≥ 2 then (current + 1) % STATE_RANGE
  else if active_neighbors = 0 then (current - 1) % STATE_RANGE
  else current

/-- The inline `active_neighbors` count of `step`: how many of the four
wrapped neighbors hold a value `>= ACTIVE_THRESHOLD`. -/
def activeCount (s : AutomatonState) (row col : Int) : Nat :=
  ((s.neighbor_coords row col).filter
    (fun rc => decide (ACTIVE_THRESHOLD ≤ cellAt s rc.1 rc.2))).length

/-- `step`: build the next grid row-major, applying the transition to every
cell of the input grid. -/
def AutomatonState.step (s : AutomatonState) : AutomatonState :=
  AutomatonState.mk s.width s.height
    ((List.range s.height.toNat).map (fun (row : Nat) =>
      (List.range s.width.toNat).map (fun (col : Nat) =>
        nextState (cellAt s (row : Int) (col : Int))
          (activeCount s (row : Int) (col : Int)))))

/-- The list of rendered lines of `render` (one string per row, each cell
mapped to its palette character). -/
def renderedLines (s : AutomatonState) : List String :=
  s.cells.map (fun row =>
    String.mk (row.map (fun state => PALETTE.toList.getD state.toNat ' ')))

/-- `render`: palette characters per cell, rows joined by a newline. -/
def AutomatonState.render (s : AutomatonState) : String :=
  String.intercalate "\n" (renderedLines s)

/-- The loop `for _ in range(steps): state = state.step()` with an explicit
iteration count. -/
def stepLoop : AutomatonState → Nat → AutomatonState
  | s, 0 => s
  | s, n + 1 => stepLoop s.step n

/-- `simulate(initial, steps)`: Python's `range(steps)` executes
`max(steps, 0)` iterations, i.e. `steps.toNat`. -/
def simulate (initial : AutomatonState) (steps : Int) : AutomatonState :=
  stepLoop initial steps.toNat

/-- Every cell value lies in `[0, STATE_RANGE)`. -/
def InRange (s : AutomatonState) : Prop :=
  ∀ row ∈ s.cells, ∀ v ∈ row, 0 ≤ v ∧ v < STATE_RANGE

/-- `cells` has exactly `height` rows of exactly `width` columns. -/
def Rectangular (s : AutomatonState) : Prop :=
  s.cells.length = s.height.toNat ∧ ∀ row ∈ s.cells, row.length = s.width.toNat

/-- Positive dimensions, rectangular, all values in range. -/
def WellFormed (s : AutomatonState) : Prop :=
  0 < s.width ∧ 0 < s.height ∧ Rectangular s ∧ InRange s

instance (s : AutomatonState) : Decidable (InRange s) :=
  inferInstanceAs (Decidable (∀ row ∈ s.cells, ∀ v ∈ row, 0 ≤ v ∧ v < STATE_RANGE))

instance (s : AutomatonState) : Decidable (Rectangular s) :=
  inferInstanceAs (Decidable (_ ∧ _))

instance (s : AutomatonState) : Decidable (WellFormed s) :=
  inferInstanceAs (Decidable (_ ∧ _ ∧ _ ∧ _))

lemma getD_mem_or_default {α : Type} (l : List α) (n : Nat) (d : α) :
    l.getD n d ∈ l ∨ l.getD n d = d := by
  by_cases h : n < l.length
  · left
    rw [List.getD_eq_getElem _ _ h]
    exact List.getElem_mem h
  · right
    exact List.getD_eq_default _ _ (Nat.le_of_not_lt h)

lemma cellAt_range (s : AutomatonState) (h : InRange s) (r c : Int) :
    0 ≤ cellAt s r c ∧ cellAt s r c < STATE_RANGE := by
  unfold cellAt
  rcases getD_mem_or_default s.cells r.toNat [] with hrow | hrow
  · rcases getD_mem_or_default (s.cells.getD r.toNat []) c.toNat 0 with hv | hv
    · exact h _ hrow _ hv
    · rw [hv]; exact ⟨le_refl 0, by decide⟩
  · rw [hrow]
    simp only [List.getD_nil]
    exact ⟨le_refl 0, by decide⟩

lemma nextState_range (current : Int) (h0 : 0 ≤ current)
    (h7 : current < STATE_RANGE) (ac : Nat) :
    0 ≤ nextState current ac ∧ nextState current ac < STATE_RANGE := by
  unfold nextState
  split
  · exact ⟨Int.emod_nonneg _ (by decide), Int.emod_lt_of_pos _ (by decide)⟩
  · split
    · exact ⟨Int.emod_nonneg _ (by decide), Int.emod_lt_of_pos _ (by decide)⟩
    · exact ⟨h0, h7⟩

lemma inRange_step (s : AutomatonState) (h : InRange s) : InRange s.step := by
  intro row hrow v hv
  simp only [AutomatonState.step, List.mem_map, List.mem_range] at hrow
  obtain ⟨i, _, rfl⟩ := hrow
  simp only [List.mem_map, List.mem_range] at hv
  obtain ⟨j, _, rfl⟩ := hv
  exact nextState_range _ (cellAt_range s h _ _).1 (cellAt_range s h _ _).2 _

lemma inRange_stepLoop (n : Nat) : ∀ s : AutomatonState,
    InRange s → InRange (stepLoop s n) := by
  induction n with
  | zero => exact fun s h => h
  | succ n ih => exact fun s h => ih s.step (inRange_step s h)

lemma step_width (s : AutomatonState) : s.step.width = s.width := rfl

lemma step_height (s : AutomatonState) : s.step.height = s.height := rfl

lemma rectangular_step (s : AutomatonState) : Rectangular s.step := by
  constructor
  · simp [AutomatonState.step, Rectangular]
  · intro row hrow
    simp only [AutomatonState.step, List.mem_map, List.mem_range] at hrow
    obtain ⟨i, _, rfl⟩ := hrow
    simp [AutomatonState.step]

lemma stepLoop_width (n : Nat) : ∀ s : AutomatonState,
    (stepLoop s n).width = s.width := by
  induction n with
  | zero => exact fun s => rfl
  | succ n ih => exact fun s => ih s.step

lemma stepLoop_height (n : Nat) : ∀ s : AutomatonState,
    (stepLoop s n).height = s.height := by
  induction n with
  | zero => exact fun s => rfl
  | succ n ih => exact fun s => ih s.step

lemma rectangular_stepLoop (n : Nat) : ∀ s : AutomatonState,
    Rectangular s → Rectangular (stepLoop s n) := by
  induction n with
  | zero => exact fun s h => h
  | succ n ih => exact fun s _ => ih s.step (rectangular_step s)

lemma cellAt_step (s : AutomatonState) (row col : Nat)
    (hr : row < s.height.toNat) (hc : col < s.width.toNat) :
    cellAt s.step (row : Int) (col : Int) =
      nextState (cellAt s (row : Int) (col : Int))
        (activeCount s (row : Int) (col : Int)) := by
  have h1 : s.step.cells.getD ((row : Int)).toNat [] =
      (List.range s.width.toNat).map (fun (col : Nat) =>
        nextState (cellAt s (row : Int) (col : Int))
          (activeCount s (row : Int) (col : Int))) := by
    rw [Int.toNat_natCast]
    show ((List.range s.height.toNat).map _).getD row [] = _
    rw [List.getD_eq_getElem _ _ (by simpa using hr)]
    rw [List.getElem_map, List.getElem_range]
  show (s.step.cells.getD _ []).getD _ 0 = _
  rw [h1, Int.toNat_natCast]
  rw [List.getD_eq_getElem _ _ (by simpa using hc)]
  rw [List.getElem_map, List.getElem_range]

lemma neighbor_coords_eq_of_dims (s1 s2 : AutomatonState)
    (hw : s1.width = s2.width) (hh : s1.height = s2.height) (r c : Int) :
    s1.neighbor_coords r c = s2.neighbor_coords r c := by
  unfold AutomatonState.neighbor_coords
  rw [hw, hh]

lemma stepLoop_eq_iterate (n : Nat) : ∀ s : AutomatonState,
    stepLoop s n = AutomatonState.step^[n] s := by
  induction n with
  | zero => exact fun s => rfl
  | succ n ih =>
    intro s
    rw [Function.iterate_succ_apply]
    exact ih s.step

/-- Sample 4×3 well-formed grid used to instantiate witnesses. -/
def sampleG : AutomatonState :=
  AutomatonState.mk 4 3 [[0, 1, 2, 3], [4, 5, 6, 0], [1, 2, 3, 4]]

/-- Claim C1: the per-cell transition computes `(current + 1) % 7` when at
least two neighbors are active, `(current - 1) % 7` (non-negative modulo,
so `0` decrements to `6`) when none is, and leaves the value unchanged when
exactly one is. -/
theorem transition_rule_spec (current : Int) (_hc0 : 0 ≤ current)
    (_hc7 : current < STATE_RANGE) (ac : Nat) (hac : ac ≤ 4) :
    (2 ≤ ac → nextState current ac = (current + 1) % 7) ∧
    (ac = 0 → nextState current ac = (current - 1) % 7) ∧
    (ac = 1 → nextState current ac = current) ∧
    nextState 0 0 = 6 := by
  refine ⟨?_, ?_, ?_, by decide⟩
  · intro h
    simp [nextState, STATE_RANGE, h]
  · intro h
    subst h
    simp [nextState, STATE_RANGE]
  · intro h
    subst h
    simp [nextState, STATE_RANGE]

/-- Witness for C1 at `current = 3`, `active_count = 2`. -/
theorem transition_rule_spec_witness :
    (2 ≤ 2 → nextState 3 2 = (3 + 1) % 7) ∧
    (2 = 0 → nextState 3 2 = (3 - 1) % 7) ∧
    (2 = 1 → nextState 3 2 = 3) ∧
    nextState 0 0 = 6 :=
  transition_rule_spec 3 (by decide) (by decide) 2 (by decide)

/-- Claim C2: if every cell of `g` lies in `[0, 7)`, so does every cell of
`g.step` and of `simulate g steps` for any number of steps. -/
theorem range_invariant (g : AutomatonState) (steps : Int) (h : InRange g) :
    InRange g.step ∧ InRange (simulate g steps) :=
  ⟨inRange_step g h, inRange_stepLoop steps.toNat g h⟩

/-- Witness for C2 on a concrete grid and `steps = 2`. -/
theorem range_invariant_witness :
    InRange sampleG ∧ (InRange sampleG.step ∧ InRange (simulate sampleG 2)) :=
  ⟨by decide, range_invariant sampleG 2 (by decide)⟩

/-- Claim C4: `simulate g steps` is the `steps`-fold iteration of `step`
starting from `g`, and `simulate g 0 = g`. -/
theorem simulate_iterates_step (g : AutomatonState) (steps : Int)
    (_hg : WellFormed g) (_hs : 0 ≤ steps) :
    simulate g steps = AutomatonState.step^[steps.toNat] g ∧
      simulate g 0 = g :=
  ⟨stepLoop_eq_iterate steps.toNat g, rfl⟩

/-- Witness for C4 on a concrete grid and `steps = 2`. -/
theorem simulate_iterates_step_witness :
    simulate sampleG 2 = AutomatonState.step^[(2 : Int).toNat] sampleG ∧
      simulate sampleG 0 = sampleG :=
  simulate_iterates_step sampleG 2 (by decide) (by decide)

/-- Claim C5: simulation preserves `width` and `height`, and the output
cells array has exactly `height` rows of exactly `width` columns. -/
theorem dimension_preservation (g : AutomatonState) (steps : Int)
    (hg : WellFormed g) (_hs : 0 ≤ steps) :
    (simulate g steps).width = g.width ∧
    (simulate g steps).height = g.height ∧
    Rectangular (simulate g steps) :=
  ⟨stepLoop_width steps.toNat g, stepLoop_height steps.toNat g,
    rectangular_stepLoop steps.toNat g hg.2.2.1⟩

/-- Witness for C5 on a concrete grid and `steps = 3`. -/
theorem dimension_preservation_witness :
    (simulate sampleG 3).width = sampleG.width ∧
    (simulate sampleG 3).height = sampleG.height ∧
    Rectangular (simulate sampleG 3) :=
  dimension_preservation sampleG 3 (by decide) (by decide)

/-- Claim C8: on the 1×1 grid holding 4, all four wrapped neighbors are the
cell itself, the active count is 4, and one step yields the 1×1 grid
holding 5. -/
theorem single_cell_grid_step :
    (AutomatonState.mk 1 1 [[4]]).neighbor_coords 0 0 =
      [(0, 0), (0, 0), (0, 0), (0, 0)] ∧
    activeCount (AutomatonState.mk 1 1 [[4]]) 0 0 = 4 ∧
    (AutomatonState.mk 1 1 [[4]]).step = AutomatonState.mk 1 1 [[5]] := by
  decide

/-- Claim C9: for negative `steps`, `range(steps)` is empty, so `simulate`
returns the input grid unchanged. -/
theorem simulate_negative_steps (g : AutomatonState) (steps : Int)
    (h : steps < 0) : simulate g steps = g := by
  unfold simulate
  rw [Int.toNat_of_nonpos (le_of_lt h)]
  rfl

/-- Witness for C9 at `steps = -3`. -/
theorem simulate_negative_steps_witness : simulate sampleG (-3) = sampleG :=
  simulate_negative_steps sampleG (-3) (by decide)

/-- Claim C3: for in-range `(row, col)` on a positively sized grid, the
neighbor resolver yields exactly the four pairs north, south, west, east,
each coordinate wrapped by non-negative modulo, and every emitted index is
in range. -/
theorem neighbor_coords_spec (s : AutomatonState) (row col : Int)
    (hh : 0 < s.height) (hw : 0 < s.width)
    (hr0 : 0 ≤ row) (hr1 : row < s.height)
    (hc0 : 0 ≤ col) (hc1 : col < s.width) :
    s.neighbor_coords row col =
      [((row - 1) % s.height, col), ((row + 1) % s.height, col),
       (row, (col - 1) % s.width), (row, (col + 1) % s.width)] ∧
    ∀ rc ∈ s.neighbor_coords row col,
      0 ≤ rc.1 ∧ rc.1 < s.height ∧ 0 ≤ rc.2 ∧ rc.2 < s.width := by
  constructor
  · simp only [AutomatonState.neighbor_coords, _wrap, List.map_cons,
      List.map_nil, add_zero, ← sub_eq_add_neg,
      Int.emod_eq_of_lt hr0 hr1, Int.emod_eq_of_lt hc0 hc1]
  · intro rc hrc
    unfold AutomatonState.neighbor_coords at hrc
    obtain ⟨d, _, rfl⟩ := List.mem_map.1 hrc
    exact ⟨Int.emod_nonneg _ (ne_of_gt hh), Int.emod_lt_of_pos _ hh,
      Int.emod_nonneg _ (ne_of_gt hw), Int.emod_lt_of_pos _ hw⟩

/-- Witness for C3 on a 3-wide, 2-high grid at the boundary cell `(0, 0)`. -/
theorem neighbor_coords_spec_witness :
    ((AutomatonState.mk 3 2 [[0, 0, 0], [0, 0, 0]]).neighbor_coords 0 0 =
      [((0 - 1) % 2, 0), ((0 + 1) % 2, 0), (0, (0 - 1) % 3),
       (0, (0 + 1) % 3)] ∧
    ∀ rc ∈ (AutomatonState.mk 3 2 [[0, 0, 0], [0, 0, 0]]).neighbor_coords 0 0,
      0 ≤ rc.1 ∧ rc.1 < 2 ∧ 0 ≤ rc.2 ∧ rc.2 < 3) :=
  neighbor_coords_spec (AutomatonState.mk 3 2 [[0, 0, 0], [0, 0, 0]]) 0 0
    (by decide) (by decide) (by decide) (by decide) (by decide) (by decide)

/-- Claim C7: on a well-formed grid, every index `step` reads — the cell
itself and its four wrapped neighbors — is within the bounds of the cells
array, so no out-of-range access occurs. -/
theorem step_reads_in_bounds (s : AutomatonState) (hw : 0 < s.width)
    (hh : 0 < s.height) (hrect : Rectangular s) (row col : Nat)
    (hr : row < s.height.toNat) (hc : col < s.width.toNat) :
    row < s.cells.length ∧ col < (s.cells.getD row []).length ∧
    ∀ rc ∈ s.neighbor_coords (row : Int) (col : Int),
      0 ≤ rc.1 ∧ rc.1.toNat < s.cells.length ∧
      0 ≤ rc.2 ∧ rc.2.toNat < (s.cells.getD rc.1.toNat []).length := by
  obtain ⟨hlen, hrows⟩ := hrect
  have hrowlen : ∀ n : Nat, n < s.cells.length →
      (s.cells.getD n []).length = s.width.toNat := by
    intro n hn
    refine hrows _ ?_
    rw [List.getD_eq_getElem _ _ hn]
    exact List.getElem_mem hn
  have hrlen : row < s.cells.length := by rw [hlen]; exact hr
  refine ⟨hrlen, ?_, ?_⟩
  · rw [hrowlen row hrlen]; exact hc
  · intro rc hrc
    unfold AutomatonState.neighbor_coords at hrc
    obtain ⟨d, _, rfl⟩ := List.mem_map.1 hrc
    simp only [_wrap]
    have h1 : 0 ≤ ((row : Int) + d.1) % s.height :=
      Int.emod_nonneg _ (ne_of_gt hh)
    have h2 : ((row : Int) + d.1) % s.height < s.height :=
      Int.emod_lt_of_pos _ hh
    have h3 : 0 ≤ ((col : Int) + d.2) % s.width :=
      Int.emod_nonneg _ (ne_of_gt hw)
    have h4 : ((col : Int) + d.2) % s.width < s.width :=
      Int.emod_lt_of_pos _ hw
    have h5 : (((row : Int) + d.1) % s.height).toNat < s.cells.length := by
      rw [hlen]; omega
    refine ⟨h1, h5, h3, ?_⟩
    rw [hrowlen _ h5]
    omega

/-- Witness for C7 on a concrete 4×3 grid at cell `(0, 3)`. -/
theorem step_reads_in_bounds_witness :
    0 < sampleG.cells.length ∧ 3 < (sampleG.cells.getD 0 []).length ∧
    ∀ rc ∈ sampleG.neighbor_coords 0 3,
      0 ≤ rc.1 ∧ rc.1.toNat < sampleG.cells.length ∧
      0 ≤ rc.2 ∧ rc.2.toNat < (sampleG.cells.getD rc.1.toNat []).length :=
  step_reads_in_bounds sampleG (by decide) (by decide) (by decide) 0 3
    (by decide) (by decide)

/-- First grid of the locality witness: all cells zero. -/
def locA : AutomatonState :=
  AutomatonState.mk 3 3 [[0, 0, 0], [0, 0, 0], [0, 0, 0]]

/-- Second grid of the locality witness: differs from `locA` only at the
corner `(2, 2)`, which is not cell `(0, 0)` nor one of its neighbors. -/
def locB : AutomatonState :=
  AutomatonState.mk 3 3 [[0, 0, 0], [0, 0, 0], [0, 0, 6]]

/-- Claim C10: two-run noninterference — if two grids of equal dimensions
agree at a cell and at its four wrapped neighbor coordinates, the stepped
grids agree at that cell. -/
theorem step_locality (g1 g2 : AutomatonState)
    (hw : g1.width = g2.width) (hh : g1.height = g2.height)
    (row col : Nat) (hr : row < g1.height.toNat) (hc : col < g1.width.toNat)
    (hcell : cellAt g1 (row : Int) (col : Int) =
      cellAt g2 (row : Int) (col : Int))
    (hnbr : ∀ rc ∈ g1.neighbor_coords (row : Int) (col : Int),
      cellAt g1 rc.1 rc.2 = cellAt g2 rc.1 rc.2) :
    cellAt g1.step (row : Int) (col : Int) =
      cellAt g2.step (row : Int) (col : Int) := by
  rw [cellAt_step g1 row col hr hc, cellAt_step g2 row col (hh ▸ hr) (hw ▸ hc),
    hcell]
  have hfilter : (g1.neighbor_coords (row : Int) (col : Int)).filter
        (fun rc => decide (ACTIVE_THRESHOLD ≤ cellAt g1 rc.1 rc.2)) =
      (g1.neighbor_coords (row : Int) (col : Int)).filter
        (fun rc => decide (ACTIVE_THRESHOLD ≤ cellAt g2 rc.1 rc.2)) :=
    List.filter_congr (fun rc hrc => by rw [hnbr rc hrc])
  have hcount : activeCount g1 (row : Int) (col : Int) =
      activeCount g2 (row : Int) (col : Int) := by
    unfold activeCount
    rw [← neighbor_coords_eq_of_dims g1 g2 hw hh, hfilter]
  rw [hcount]

/-- Witness for C10: `locA` and `locB` differ only at the far corner, and
their stepped grids agree at `(0, 0)`. -/
theorem step_locality_witness :
    cellAt locA.step 0 0 = cellAt locB.step 0 0 :=
  step_locality locA locB rfl rfl 0 0 (by decide) (by decide) (by decide)
    (by decide)

lemma renderedLines_getD (s : AutomatonState)
    (hlen : s.cells.length = s.height.toNat) (i : Nat)
    (hi : i < s.height.toNat) :
    (renderedLines s).getD i "" =
      String.mk ((s.cells.getD i []).map
        (fun state => PALETTE.toList.getD state.toNat ' ')) := by
  have hi' : i < s.cells.length := by rw [hlen]; exact hi
  unfold renderedLines
  rw [List.getD_eq_getElem _ _ (by simpa using hi'), List.getElem_map,
    List.getD_eq_getElem _ _ hi']

/-- Claim C6: `render` joins `height` lines of `width` characters with a
single newline and no trailing newline, each cell value mapped to its
character of the palette `" .:=*#@"`; a 3×1 grid with values `[0, 3, 6]`
renders as `" =@"`. -/
theorem render_spec (s : AutomatonState) (h : WellFormed s) :
    s.render = String.intercalate "\n" (renderedLines s) ∧
    (renderedLines s).length = s.height.toNat ∧
    (∀ line ∈ renderedLines s, line.length = s.width.toNat) ∧
    (∀ i j : Nat, i < s.height.toNat → j < s.width.toNat →
      ((renderedLines s).getD i "").toList.getD j 'X' =
        PALETTE.toList.getD (cellAt s (i : Int) (j : Int)).toNat 'X') ∧
    (AutomatonState.mk 3 1 [[0, 3, 6]]).render = " =@" := by
  obtain ⟨hw, hh, ⟨hlen, hrows⟩, hir⟩ := h
  refine ⟨rfl, ?_, ?_, ?_, by decide⟩
  · simp [renderedLines, hlen]
  · intro line hline
    simp only [renderedLines, List.mem_map] at hline
    obtain ⟨row, hrow, rfl⟩ := hline
    simpa using hrows row hrow
  · intro i j hi hj
    have hi' : i < s.cells.length := by rw [hlen]; exact hi
    have hrowmem : s.cells.getD i [] ∈ s.cells := by
      rw [List.getD_eq_getElem _ _ hi']
      exact List.getElem_mem hi'
    have hrl : (s.cells.getD i []).length = s.width.toNat := hrows _ hrowmem
    have hj' : j < (s.cells.getD i []).length := by rw [hrl]; exact hj
    rw [renderedLines_getD s hlen i hi]
    show ((s.cells.getD i []).map _).getD j 'X' = _
    rw [List.getD_eq_getElem _ _ (by simpa using hj'), List.getElem_map,
      ← List.getD_eq_getElem (s.cells.getD i []) 0 hj']
    have hveq : cellAt s (i : Int) (j : Int) = (s.cells.getD i []).getD j 0 := by
      unfold cellAt
      rw [Int.toNat_natCast, Int.toNat_natCast]
    have hvmem : (s.cells.getD i []).getD j 0 ∈ s.cells.getD i [] := by
      rw [List.getD_eq_getElem _ _ hj']
      exact List.getElem_mem hj'
    have hv := hir _ hrowmem _ hvmem
    have h7 : (STATE_RANGE : Int) = 7 := rfl
    rw [hveq]
    have hlt : ((s.cells.getD i []).getD j 0).toNat < PALETTE.toList.length := by
      have hlen7 : PALETTE.toList.length = 7 := rfl
      rw [hlen7]
      omega
    rw [List.getD_eq_getElem _ _ hlt, List.getD_eq_getElem _ _ hlt]

/-- Witness for C6 on the well-formed 3×1 grid with values `[0, 3, 6]`. -/
theorem render_spec_witness :
    (AutomatonState.mk 3 1 [[0, 3, 6]]).render =
      String.intercalate "\n" (renderedLines (AutomatonState.mk 3 1 [[0, 3, 6]])) ∧
    (renderedLines (AutomatonState.mk 3 1 [[0, 3, 6]])).length = 1 ∧
    (∀ line ∈ renderedLines (AutomatonState.mk 3 1 [[0, 3, 6]]),
      line.length = 3) ∧
    (∀ i j : Nat, i < 1 → j < 3 →
      ((renderedLines (AutomatonState.mk 3 1 [[0, 3, 6]])).getD i "").toList.getD j 'X' =
        PALETTE.toList.getD
          (cellAt (AutomatonState.mk 3 1 [[0, 3, 6]]) (i : Int) (j : Int)).toNat 'X') ∧
    (AutomatonState.mk 3 1 [[0, 3, 6]]).render = " =@" :=
  render_spec (AutomatonState.mk 3 1 [[0, 3, 6]]) (by decide)

end SevenGates
